import Mathlib

/-!
Shallow embedding of the account-server core (Go): the in-memory account
store, the account service, the HTTP and gRPC adapters, and the logging
wrappers, together with theorems settling the specification claims.

Go map state is embedded as an association list with insert-replaces-key
semantics; the nondeterministic inputs of the service layer (uuid.New,
time.Now) are passed as explicit parameters; fallible operations return
Except values.
-/

/-- Broken-down UTC time, embedding the Go time.Time value produced by
time.Now().UTC() in the service layer. -/
structure GoTime where
  year : Nat
  month : Nat
  day : Nat
  hour : Nat
  minute : Nat
  second : Nat
  nsec : Nat
deriving DecidableEq, Repr

/-- Zero-pad a natural number to two decimal digits (Go %02d). -/
def pad2 (n : Nat) : String :=
  if n < 10 then "0" ++ toString n else toString n

/-- Zero-pad a natural number to four decimal digits (Go year field). -/
def pad4 (n : Nat) : String :=
  if n < 10 then "000" ++ toString n
  else if n < 100 then "00" ++ toString n
  else if n < 1000 then "0" ++ toString n
  else toString n

/-- Zero-pad a natural number to nine decimal digits (nanoseconds). -/
def pad9 (n : Nat) : String :=
  let s := toString n
  String.mk (List.replicate (9 - s.length) '0') ++ s

/-- Fractional-second suffix as Go time formatting prints it: empty when
nsec is zero, otherwise a dot followed by the nanoseconds with trailing
zeros trimmed. -/
def fracString (nsec : Nat) : String :=
  if nsec = 0 then ""
  else "." ++ String.mk (((pad9 nsec).toList.reverse.dropWhile (fun c => c = '0')).reverse)

/-- Embedding of Go time.Time.String() for a UTC time, the serialization
used by the gRPC handler (grpc.go: acc.CreatedAt.String()): layout
2006-01-02 15:04:05.999999999 -0700 MST, which for UTC prints the
+0000 UTC suffix. -/
def GoTime.goString (t : GoTime) : String :=
  pad4 t.year ++ "-" ++ pad2 t.month ++ "-" ++ pad2 t.day ++ " " ++
  pad2 t.hour ++ ":" ++ pad2 t.minute ++ ":" ++ pad2 t.second ++
  fracString t.nsec ++ " +0000 UTC"

/-- Embedding of Go time.Time.MarshalJSON (RFC 3339 with nanoseconds) for
a UTC time, the textual form encoding/json produces for a time.Time field.
This is the created_at string the HTTP adapter writes through writeJSON. -/
def GoTime.rfc3339 (t : GoTime) : String :=
  pad4 t.year ++ "-" ++ pad2 t.month ++ "-" ++ pad2 t.day ++ "T" ++
  pad2 t.hour ++ ":" ++ pad2 t.minute ++ ":" ++ pad2 t.second ++
  fracString t.nsec ++ "Z"

/-- Lexicographic order on broken-down UTC times (earlier-or-equal). -/
def GoTime.le (a b : GoTime) : Bool :=
  if a.year ≠ b.year then decide (a.year < b.year)
  else if a.month ≠ b.month then decide (a.month < b.month)
  else if a.day ≠ b.day then decide (a.day < b.day)
  else if a.hour ≠ b.hour then decide (a.hour < b.hour)
  else if a.minute ≠ b.minute then decide (a.minute < b.minute)
  else if a.second ≠ b.second then decide (a.second < b.second)
  else decide (a.nsec ≤ b.nsec)

/-- Modelled from the spec: the model package (model.Account) is not under
src/; per section 3 of the spec the entity has an opaque string id, a name,
an email, and a UTC creation timestamp, and per section 6 its JSON field
names are id, name, email, created_at. The Go field CreatedAt has type
time.Time (the service assigns time.Now().UTC() to it), so its JSON form
is the standard time.Time marshalling, GoTime.rfc3339. -/
structure Account where
  ID : String
  Name : String
  Email : String
  CreatedAt : GoTime
deriving DecidableEq, Repr

/-- The store state: the Go map string to Account embedded as an
association list with unique keys maintained by insert-replace. -/
abbrev Store := List (String × Account)

/-- Insert with Go map semantics: replace the binding if the key is
present, append otherwise. -/
def alInsert (l : Store) (k : String) (v : Account) : Store :=
  match l with
  | [] => [(k, v)]
  | (k', v') :: t => if k' = k then (k, v) :: t else (k', v') :: alInsert t k v

/-- Lookup with Go map semantics. -/
def alLookup (l : Store) (k : String) : Option Account :=
  match l with
  | [] => none
  | (k', v') :: t => if k' = k then some v' else alLookup t k

/-- The error kinds a store or service operation can surface: ErrNotFound,
or any other (internal) error. The store itself only ever produces
notFound. -/
inductive StoreErr where
  | notFound
  | internal
deriving DecidableEq, Repr

/-- AccountStore.Create (store.go): s.accounts[acc.ID] = acc; return acc, nil.
Returns the new store state with the Go return pair embedded as Except. -/
def AccountStore.Create (s : Store) (acc : Account) : Store × Except StoreErr Account :=
  (alInsert s acc.ID acc, Except.ok acc)

/-- AccountStore.GetByID (store.go): map lookup; missing key returns
ErrNotFound. -/
def AccountStore.GetByID (s : Store) (id : String) : Except StoreErr Account :=
  match alLookup s id with
  | none => Except.error StoreErr.notFound
  | some acc => Except.ok acc

/-- AccountStore.List (store.go, method name List): builds a slice with
make(\x5b\x5d*model.Account, 0, len) — hence never a nil slice — and appends
every stored record; returns (slice, nil). A Go slice is embedded as
Option (List Account), none standing for the nil slice. -/
def AccountStore.ListAll (s : Store) : Except StoreErr (Option (List Account)) :=
  Except.ok (some (s.map Prod.snd))

/-- CreateAccountInput (service.go). -/
structure CreateAccountInput where
  Name : String
  Email : String
deriving DecidableEq, Repr

/-- AccountService.Create (service.go): builds the Account with a fresh
uuid and time.Now().UTC() — both passed here as explicit parameters —
and delegates to AccountStore.Create. -/
def AccountService.Create (s : Store) (input : CreateAccountInput)
    (uuid : String) (now : GoTime) : Store × Except StoreErr Account :=
  let acc : Account := { ID := uuid, Name := input.Name, Email := input.Email, CreatedAt := now }
  AccountStore.Create s acc

/-- AccountService.GetByID (service.go): pure delegation to the store. -/
def AccountService.GetByID (s : Store) (id : String) : Except StoreErr Account :=
  AccountStore.GetByID s id

/-- AccountService.ListAccounts (service.go, method name List): pure
delegation to the store. -/
def AccountService.ListAll (s : Store) : Except StoreErr (Option (List Account)) :=
  AccountStore.ListAll s

/-- An HTTP response as the handlers produce it: status code and body
text. -/
structure HTTPResponse where
  status : Nat
  body : String
deriving DecidableEq, Repr

/-- http.Error (Go net/http): writes the message, a newline, and the
status code. -/
def httpError (msg : String) (code : Nat) : HTTPResponse :=
  { status := code, body := msg ++ "\n" }

/-- JSON string quoting as encoding/json renders it for strings without
escape-needing characters (the ids, names, emails, and timestamp strings
in play contain none). -/
def jsonQuote (s : String) : String :=
  "\"" ++ s ++ "\""

/-- JSON object for one Account as encoding/json marshals model.Account:
field names from the json tags (spec section 6), created_at through the
standard time.Time marshalling. -/
def accountJson (acc : Account) : String :=
  "\x7b\"id\":" ++ jsonQuote acc.ID ++ ",\"name\":" ++ jsonQuote acc.Name ++
  ",\"email\":" ++ jsonQuote acc.Email ++
  ",\"created_at\":" ++ jsonQuote (GoTime.rfc3339 acc.CreatedAt) ++ "\x7d"

/-- JSON for a Go slice of Accounts: a nil slice (none) marshals to null,
a non-nil slice to an array. -/
def sliceJson (accs : Option (List Account)) : String :=
  match accs with
  | none => "null"
  | some l => "[" ++ String.intercalate "," (l.map accountJson) ++ "]"

/-- writeJSON (http handler helper): sets the status and encodes the value;
json.Encoder.Encode appends a newline. -/
def writeJSON (status : Nat) (body : String) : HTTPResponse :=
  { status := status, body := body ++ "\n" }

/-- The request body of POST /accounts as the json decoder sees it: either
malformed, or a JSON object whose name and email keys may each be absent. -/
inductive ReqBody where
  | malformed
  | object (name : Option String) (email : Option String)
deriving DecidableEq, Repr

/-- json.Decoder.Decode into the anonymous request struct: a malformed
body fails; in a well-formed object an absent key leaves the zero value,
the empty string. -/
def ReqBody.decode (b : ReqBody) : Option CreateAccountInput :=
  match b with
  | ReqBody.malformed => none
  | ReqBody.object n e => some { Name := n.getD "", Email := e.getD "" }

/-- createAccount (http handler): decode failure gives 400; empty name or
email gives 400 before the service is invoked; otherwise the service
creates and the handler answers 201 with the account JSON. The store
state is threaded explicitly and returned alongside the response. -/
def createAccount (s : Store) (b : ReqBody) (uuid : String) (now : GoTime) :
    HTTPResponse × Store :=
  match ReqBody.decode b with
  | none => (httpError "invalid request body" 400, s)
  | some req =>
    if req.Name == "" || req.Email == "" then
      (httpError "name and email are required" 400, s)
    else
      match AccountService.Create s req uuid now with
      | (s', Except.ok acc) => (writeJSON 201 (accountJson acc), s')
      | (s', Except.error _) => (httpError "failed to create account" 500, s')

/-- getAccount (http handler): ErrNotFound maps to 404, any other error to
500, success to 200 with the account JSON. -/
def getAccount (s : Store) (id : String) : HTTPResponse :=
  match AccountService.GetByID s id with
  | Except.error StoreErr.notFound => httpError "account not found" 404
  | Except.error _ => httpError "failed to get account" 500
  | Except.ok acc => writeJSON 200 (accountJson acc)

/-- listAccounts (http handler): failure maps to 500, success to 200 with
the JSON array of accounts. -/
def listAccounts (s : Store) : HTTPResponse :=
  match AccountService.ListAll s with
  | Except.error _ => httpError "failed to list accounts" 500
  | Except.ok accs => writeJSON 200 (sliceJson accs)

/-- gRPC status codes used by the handlers. -/
inductive GrpcCode where
  | invalidArgument
  | notFound
  | internal
deriving DecidableEq, Repr

/-- The pb.Account message: CreatedAt is a string field, filled by the
handler with acc.CreatedAt.String(). -/
structure PbAccount where
  id : String
  name : String
  email : String
  createdAt : String
deriving DecidableEq, Repr

/-- The pb.Account the gRPC handlers build from a model Account
(grpc.go): the CreatedAt field is acc.CreatedAt.String(). -/
def toPb (acc : Account) : PbAccount :=
  { id := acc.ID, name := acc.Name, email := acc.Email,
    createdAt := GoTime.goString acc.CreatedAt }

/-- CreateAccount (grpc.go): empty name or email gives InvalidArgument
before the service is invoked; a service error gives Internal; success
wraps the created account. The store state is threaded explicitly. -/
def GRPCCreateAccount (s : Store) (name email : String) (uuid : String) (now : GoTime) :
    Except (GrpcCode × String) PbAccount × Store :=
  if name == "" || email == "" then
    (Except.error (GrpcCode.invalidArgument, "name and email are required"), s)
  else
    match AccountService.Create s { Name := name, Email := email } uuid now with
    | (s', Except.ok acc) => (Except.ok (toPb acc), s')
    | (s', Except.error _) => (Except.error (GrpcCode.internal, "failed to create account"), s')

/-- GetAccount (grpc.go): empty id gives InvalidArgument; ErrNotFound maps
to the NotFound status, other errors to Internal. -/
def GRPCGetAccount (s : Store) (id : String) : Except (GrpcCode × String) PbAccount :=
  if id == "" then Except.error (GrpcCode.invalidArgument, "id is required")
  else
    match AccountService.GetByID s id with
    | Except.error StoreErr.notFound => Except.error (GrpcCode.notFound, "account not found")
    | Except.error _ => Except.error (GrpcCode.internal, "failed to get account")
    | Except.ok acc => Except.ok (toPb acc)

/-- ListAccounts (grpc.go): a service error maps to Internal; success maps
every account through toPb. -/
def GRPCListAccounts (s : Store) : Except (GrpcCode × String) (List PbAccount) :=
  match AccountService.ListAll s with
  | Except.error _ => Except.error (GrpcCode.internal, "failed to list accounts")
  | Except.ok accs => Except.ok ((accs.getD []).map toPb)

/-- marshalProto (grpc_logging.go): a nil value logs as a nil marker, a
value json.Marshal rejects logs as an unmarshalable marker, otherwise the
JSON text. The argument stands for (value present, marshal outcome). -/
def marshalProto (v : Option (Option String)) : String :=
  match v with
  | none => "<nil>"
  | some none => "<unmarshalable>"
  | some (some s) => s

/-- One log line of the gRPC interceptor: method, request text, status
code text, response text. -/
structure GrpcLogEntry where
  method : String
  reqText : String
  codeText : String
  respText : String
deriving DecidableEq, Repr

/-- GRPCLogging (grpc_logging.go): runs the wrapped handler, formats a log
line from the request and the handler result through marshalProto, and
returns exactly the handler result. The handler is any function from
request to (response, status); mreq and mresp are the json.Marshal
outcomes for logging. -/
def GRPCLogging {Req Resp : Type} (handler : Req → Resp × Option GrpcCode)
    (mreq : Req → Option (Option String)) (mresp : Resp → Option (Option String))
    (method : String) (req : Req) : (Resp × Option GrpcCode) × GrpcLogEntry :=
  let r := handler req
  (r, { method := method, reqText := marshalProto (mreq req),
        codeText := toString (repr r.2), respText := marshalProto (mresp r.1) })

/-- One call a handler makes on its http.ResponseWriter: WriteHeader or
Write. -/
inductive WEvent where
  | header (status : Nat)
  | write (b : String)
deriving DecidableEq, Repr

/-- The responseRecorder state (logging.go): captured status, captured
body, and the sequence of calls forwarded to the underlying writer. -/
structure RecState where
  status : Nat
  body : String
  underlying : List WEvent
deriving DecidableEq, Repr

/-- One recorder method call (logging.go): WriteHeader records the status
and forwards; Write appends to the capture buffer and forwards. -/
def recStep (r : RecState) (e : WEvent) : RecState :=
  match e with
  | WEvent.header s => { r with status := s, underlying := r.underlying ++ [WEvent.header s] }
  | WEvent.write b => { r with body := r.body ++ b, underlying := r.underlying ++ [WEvent.write b] }

/-- Run a handler write sequence through the recorder, starting from the
initial recorder of the middleware (status 200, empty capture, nothing
forwarded yet). -/
def recRun (evs : List WEvent) : RecState :=
  evs.foldl recStep { status := 200, body := "", underlying := [] }

/-- compactJSON (logging.go): empty input logs as an empty marker;
otherwise the compacted JSON when compaction succeeds, the raw text when
it fails. The compaction outcome is passed as an oracle. -/
def compactJSON (b : String) (compacted : Option String) : String :=
  if b = "" then "<empty>"
  else match compacted with
    | some c => c
    | none => b

/-- One log line of the HTTP middleware. -/
structure HttpLogEntry where
  reqText : String
  status : Nat
  respText : String
deriving DecidableEq, Repr

/-- Logging (logging.go): reads the request body and restores it (the
handler sees the same bytes), runs the handler against the recorder over
the real writer, and logs. A handler is embedded as the function from the
request body it reads to the sequence of writer calls it makes. Returns
the calls that reached the underlying writer and the log line. -/
def Logging (next : String → List WEvent) (cmpReq cmpResp : String → Option String)
    (reqBody : String) : List WEvent × HttpLogEntry :=
  let restoredBody := reqBody
  let recS : RecState := recRun (next restoredBody)
  (recS.underlying,
   { reqText := compactJSON reqBody (cmpReq reqBody),
     status := recS.status,
     respText := compactJSON recS.body (cmpResp recS.body) })

/-- A core operation on the store, as issued through either adapter. -/
inductive Op where
  | create (acc : Account)
  | get (id : String)
  | list
deriving DecidableEq, Repr

/-- Whether an operation is a create (the only writer). -/
def Op.isCreate (o : Op) : Bool :=
  match o with
  | Op.create _ => true
  | _ => false

/-- State transition of one operation: AccountStore.Create mutates the
map; AccountStore.GetByID and AccountStore.ListAll only read under the
shared lock and leave the state unchanged. -/
def applyOp (s : Store) (o : Op) : Store :=
  match o with
  | Op.create acc => (AccountStore.Create s acc).1
  | Op.get _ => s
  | Op.list => s

/-- State after a sequence of operations. -/
def applyOps (s : Store) (ops : List Op) : Store :=
  ops.foldl applyOp s

/-- The records a list call returns (unwrapping the never-failing
result). -/
def listedAccounts (s : Store) : List Account :=
  match AccountStore.ListAll s with
  | Except.ok (some l) => l
  | _ => []

/-- Decidable form of the store invariant: every map entry is keyed by the
ID of the account it holds. -/
def storeWFb (s : Store) : Bool :=
  s.all fun p => p.1 == p.2.ID

/-- Sample creation instant used in concrete witnesses. -/
def tSample : GoTime :=
  { year := 2025, month := 1, day := 2, hour := 3, minute := 4, second := 5, nsec := 0 }

/-- Sample account used in concrete witnesses. -/
def accSample : Account :=
  { ID := "id1", Name := "Alice", Email := "a@b.com", CreatedAt := tSample }

/-- Sample one-entry store used in concrete witnesses. -/
def storeSample : Store := [("id1", accSample)]

theorem alLookup_alInsert_self (l : Store) (k : String) (v : Account) :
    alLookup (alInsert l k v) k = some v := by
  induction l with
  | nil => simp [alInsert, alLookup]
  | cons p t ih =>
    obtain ⟨a, b⟩ := p
    by_cases hk : a = k
    · simp [alInsert, alLookup, hk]
    · simp [alInsert, alLookup, hk, ih]

theorem alLookup_alInsert_ne (l : Store) (k k' : String) (v : Account) (h : k' ≠ k) :
    alLookup (alInsert l k v) k' = alLookup l k' := by
  have h' : ¬ k = k' := fun hh => h hh.symm
  induction l with
  | nil => simp [alInsert, alLookup, h']
  | cons p t ih =>
    obtain ⟨a, b⟩ := p
    by_cases hk : a = k
    · subst hk
      simp [alInsert, alLookup, h']
    · simp [alInsert, alLookup, hk, ih]

theorem mem_alInsert (l : Store) (k : String) (v : Account) (q : String × Account)
    (h : q ∈ alInsert l k v) : q = (k, v) ∨ q ∈ l := by
  induction l with
  | nil => simpa [alInsert] using h
  | cons p t ih =>
    obtain ⟨a, b⟩ := p
    by_cases hk : a = k
    · subst hk
      simp [alInsert] at h
      rcases h with h | h
      · exact Or.inl (by simp [h])
      · exact Or.inr (by simp [h])
    · simp [alInsert, hk] at h
      rcases h with h | h
      · exact Or.inr (by simp [h])
      · rcases ih h with h' | h'
        · exact Or.inl h'
        · exact Or.inr (by simp [h'])

theorem storeWFb_iff (s : Store) : storeWFb s = true ↔ ∀ p ∈ s, p.1 = p.2.ID := by
  simp [storeWFb, List.all_eq_true]

theorem alLookup_keyed (s : Store) (id : String) (acc : Account)
    (hwf : ∀ p ∈ s, p.1 = p.2.ID) (h : alLookup s id = some acc) : acc.ID = id := by
  induction s with
  | nil => simp [alLookup] at h
  | cons p t ih =>
    obtain ⟨a, b⟩ := p
    by_cases hk : a = id
    · subst hk
      simp [alLookup] at h
      rw [← h]
      exact (hwf (a, b) (by simp)).symm
    · simp [alLookup, hk] at h
      exact ih (fun q hq => hwf q (by simp [hq])) h

theorem storeWFb_applyOps (ops : List Op) : ∀ s : Store, storeWFb s = true →
    storeWFb (applyOps s ops) = true := by
  induction ops with
  | nil => intro s hs; simpa [applyOps] using hs
  | cons o t ih =>
    intro s hs
    have h1 : storeWFb (applyOp s o) = true := by
      cases o with
      | create acc =>
        rw [storeWFb_iff] at hs ⊢
        intro q hq
        rcases mem_alInsert s acc.ID acc q
            (by simpa [applyOp, AccountStore.Create] using hq) with h | h
        · simp [h]
        · exact hs q h
      | get id => simpa [applyOp] using hs
      | list => simpa [applyOp] using hs
    have h2 := ih (applyOp s o) h1
    simpa [applyOps, List.foldl_cons] using h2

theorem applyOps_no_writes (ops : List Op) (hno : ops.all (fun o => !o.isCreate) = true) :
    ∀ s : Store, applyOps s ops = s := by
  induction ops with
  | nil => intro s; rfl
  | cons o t ih =>
    intro s
    simp only [List.all_cons, Bool.and_eq_true] at hno
    have ho : applyOp s o = s := by
      cases o with
      | create acc => simp [Op.isCreate] at hno
      | get id => rfl
      | list => rfl
    have ht := ih hno.2 s
    calc applyOps s (o :: t) = applyOps (applyOp s o) t := rfl
    _ = applyOps s t := by rw [ho]
    _ = s := ih hno.2 s

theorem foldl_recStep_underlying (evs : List WEvent) :
    ∀ r : RecState, (evs.foldl recStep r).underlying = r.underlying ++ evs := by
  induction evs with
  | nil => intro r; simp
  | cons e t ih =>
    intro r
    have h1 := ih (recStep r e)
    have h2 : (recStep r e).underlying = r.underlying ++ [e] := by
      cases e <;> simp [recStep]
    simp [List.foldl_cons, h1, h2]

theorem recRun_underlying (evs : List WEvent) : (recRun evs).underlying = evs := by
  simpa [recRun] using foldl_recStep_underlying evs { status := 200, body := "", underlying := [] }

/-- C1: the claim that the RPC created_at string equals the HTTP JSON
created_at string fails on the code: at the account created at
2025-01-02 03:04:05 UTC the gRPC handler (toPb, using time.Time.String)
produces "2025-01-02 03:04:05 +0000 UTC" while the HTTP adapter encodes
the same account with created_at "2025-01-02T03:04:05Z" (RFC 3339), so
the two transports disagree on the created_at string form. -/
theorem c1_createdAt_transport_mismatch :
    (toPb accSample).createdAt = "2025-01-02 03:04:05 +0000 UTC" ∧
    accountJson accSample =
      "\x7b\"id\":\"id1\",\"name\":\"Alice\",\"email\":\"a@b.com\",\"created_at\":\"2025-01-02T03:04:05Z\"\x7d" ∧
    (toPb accSample).createdAt ≠ GoTime.rfc3339 accSample.CreatedAt := by
  refine ⟨by decide, by decide, by decide⟩

/-- C2: creating through the service with any name and email (in
particular non-empty ones) and the fresh uuid and current instant returns
exactly the record with those fields; fetching it by the returned id
yields the same record, whose Name and Email are the inputs and whose
CreatedAt is no earlier than any instant t0 at or before the creation
instant. -/
theorem c2_create_get_roundtrip (s : Store) (nm em uuid : String) (t0 now : GoTime)
    (hn : nm ≠ "") (he : em ≠ "") (ht : GoTime.le t0 now = true) :
    (AccountService.Create s { Name := nm, Email := em } uuid now).2 =
      Except.ok { ID := uuid, Name := nm, Email := em, CreatedAt := now } ∧
    AccountService.GetByID (AccountService.Create s { Name := nm, Email := em } uuid now).1 uuid =
      Except.ok { ID := uuid, Name := nm, Email := em, CreatedAt := now } ∧
    ({ ID := uuid, Name := nm, Email := em, CreatedAt := now } : Account).Name = nm ∧
    ({ ID := uuid, Name := nm, Email := em, CreatedAt := now } : Account).Email = em ∧
    GoTime.le t0 ({ ID := uuid, Name := nm, Email := em, CreatedAt := now } : Account).CreatedAt
      = true := by
  refine ⟨rfl, ?_, rfl, rfl, ht⟩
  simp [AccountService.Create, AccountService.GetByID, AccountStore.Create, AccountStore.GetByID,
        alLookup_alInsert_self]

/-- Witness for C2 at a concrete store, name, email, uuid and pair of
instants. -/
theorem c2_create_get_roundtrip_witness :
    (("Alice" : String) ≠ "" ∧ ("a@b.com" : String) ≠ "" ∧
      GoTime.le { year := 2025, month := 1, day := 2, hour := 3, minute := 4, second := 4, nsec := 0 }
        tSample = true) ∧
    ((AccountService.Create [] { Name := "Alice", Email := "a@b.com" } "u1" tSample).2 =
        Except.ok { ID := "u1", Name := "Alice", Email := "a@b.com", CreatedAt := tSample } ∧
      AccountService.GetByID
          (AccountService.Create [] { Name := "Alice", Email := "a@b.com" } "u1" tSample).1 "u1" =
        Except.ok { ID := "u1", Name := "Alice", Email := "a@b.com", CreatedAt := tSample } ∧
      ({ ID := "u1", Name := "Alice", Email := "a@b.com", CreatedAt := tSample } : Account).Name
          = "Alice" ∧
      ({ ID := "u1", Name := "Alice", Email := "a@b.com", CreatedAt := tSample } : Account).Email
          = "a@b.com" ∧
      GoTime.le { year := 2025, month := 1, day := 2, hour := 3, minute := 4, second := 4, nsec := 0 }
        ({ ID := "u1", Name := "Alice", Email := "a@b.com", CreatedAt := tSample } : Account).CreatedAt
        = true) :=
  ⟨⟨by decide, by decide, by decide⟩,
   c2_create_get_roundtrip [] "Alice" "a@b.com" "u1"
     { year := 2025, month := 1, day := 2, hour := 3, minute := 4, second := 4, nsec := 0 }
     tSample (by decide) (by decide) (by decide)⟩

/-- C3: the store get returns the stored record when the id is present and
signals exactly NotFound when it is absent — never any other error — and
on the absent case the HTTP adapter answers 404 and the gRPC adapter (for
the non-empty ids that reach the lookup) the NotFound status. -/
theorem c3_get_notfound (s : Store) (id : String) :
    (∀ acc, alLookup s id = some acc → AccountStore.GetByID s id = Except.ok acc) ∧
    (alLookup s id = none →
      AccountStore.GetByID s id = Except.error StoreErr.notFound ∧
      getAccount s id = httpError "account not found" 404 ∧
      (id ≠ "" → GRPCGetAccount s id = Except.error (GrpcCode.notFound, "account not found"))) ∧
    (∀ e, AccountStore.GetByID s id = Except.error e → e = StoreErr.notFound) := by
  refine ⟨?_, ?_, ?_⟩
  · intro acc h
    simp [AccountStore.GetByID, h]
  · intro h
    have hid : (id == "") = false ∨ (id == "") = true := by
      cases hb : (id == "") <;> simp
    refine ⟨by simp [AccountStore.GetByID, h], ?_, ?_⟩
    · simp [getAccount, AccountService.GetByID, AccountStore.GetByID, h, httpError]
    · intro hne
      have hb : (id == "") = false := by simpa using hne
      simp [GRPCGetAccount, hb, AccountService.GetByID, AccountStore.GetByID, h]
  · intro e h
    unfold AccountStore.GetByID at h
    cases hl : alLookup s id with
    | none => rw [hl] at h; simpa using h.symm
    | some a => rw [hl] at h; simp at h

/-- Witness for C3 at the empty store and a concrete never-issued id. -/
theorem c3_get_notfound_witness :
    AccountStore.GetByID ([] : Store) "missing" = Except.error StoreErr.notFound ∧
    getAccount [] "missing" = httpError "account not found" 404 ∧
    GRPCGetAccount [] "missing" = Except.error (GrpcCode.notFound, "account not found") :=
  ⟨((c3_get_notfound [] "missing").2.1 rfl).1,
   ((c3_get_notfound [] "missing").2.1 rfl).2.1,
   ((c3_get_notfound [] "missing").2.1 rfl).2.2 (by decide)⟩

/-- C4: a create request with empty name or empty email is rejected by the
HTTP adapter with 400 and by the gRPC adapter with InvalidArgument, in
both cases before the service runs, leaving the store state unchanged. -/
theorem c4_validation_rejects (s : Store) (nm em uuid : String) (now : GoTime)
    (h : nm = "" ∨ em = "") :
    createAccount s (ReqBody.object (some nm) (some em)) uuid now =
      (httpError "name and email are required" 400, s) ∧
    GRPCCreateAccount s nm em uuid now =
      (Except.error (GrpcCode.invalidArgument, "name and email are required"), s) := by
  have hb : (nm == "" || em == "") = true := by
    rcases h with h | h <;> simp [h]
  constructor
  · simp [createAccount, ReqBody.decode, hb]
  · simp [GRPCCreateAccount, hb]

/-- Witness for C4 at a concrete request with empty name. -/
theorem c4_validation_rejects_witness :
    (("" : String) = "" ∨ ("a@b.com" : String) = "") ∧
    (createAccount [] (ReqBody.object (some "") (some "a@b.com")) "u1" tSample =
        (httpError "name and email are required" 400, []) ∧
      GRPCCreateAccount [] "" "a@b.com" "u1" tSample =
        (Except.error (GrpcCode.invalidArgument, "name and email are required"), [])) :=
  ⟨Or.inl rfl, c4_validation_rejects [] "" "a@b.com" "u1" tSample (Or.inl rfl)⟩

/-- C5: on the empty store the list operation returns the empty non-nil
slice without failing, GET /accounts answers 200 with the JSON array
brackets (plus the encoder newline), and the empty-array encoding differs
from the null encoding a nil slice would produce. -/
theorem c5_empty_list_not_null :
    AccountStore.ListAll ([] : Store) = Except.ok (some []) ∧
    listAccounts [] = { status := 200, body := "[]\n" } ∧
    sliceJson (some []) = "[]" ∧ sliceJson none = "null" ∧ sliceJson (some []) ≠ sliceJson none :=
  ⟨rfl, rfl, rfl, rfl, by decide⟩

/-- C6: the store create inserts the record under its own ID —
unconditionally, so any previous record under that ID is silently
overwritten — returns exactly the record it was handed with no error, and
leaves every other key unchanged. -/
theorem c6_store_create (s : Store) (acc : Account) :
    (AccountStore.Create s acc).2 = Except.ok acc ∧
    alLookup (AccountStore.Create s acc).1 acc.ID = some acc ∧
    (∀ k, k ≠ acc.ID → alLookup (AccountStore.Create s acc).1 k = alLookup s k) :=
  ⟨rfl, alLookup_alInsert_self s acc.ID acc,
   fun k hk => alLookup_alInsert_ne s acc.ID k acc hk⟩

/-- Witness for C6 on a store that already holds a record under the same
id, showing the silent overwrite and the frame on another key. -/
theorem c6_store_create_witness :
    ((AccountStore.Create storeSample
        { ID := "id1", Name := "Bob", Email := "b@c.com", CreatedAt := tSample }).2 =
      Except.ok { ID := "id1", Name := "Bob", Email := "b@c.com", CreatedAt := tSample }) ∧
    (alLookup (AccountStore.Create storeSample
        { ID := "id1", Name := "Bob", Email := "b@c.com", CreatedAt := tSample }).1 "id1" =
      some { ID := "id1", Name := "Bob", Email := "b@c.com", CreatedAt := tSample }) ∧
    (alLookup (AccountStore.Create storeSample
        { ID := "id1", Name := "Bob", Email := "b@c.com", CreatedAt := tSample }).1 "other" =
      alLookup storeSample "other") :=
  ⟨(c6_store_create storeSample
      { ID := "id1", Name := "Bob", Email := "b@c.com", CreatedAt := tSample }).1,
   (c6_store_create storeSample
      { ID := "id1", Name := "Bob", Email := "b@c.com", CreatedAt := tSample }).2.1,
   (c6_store_create storeSample
      { ID := "id1", Name := "Bob", Email := "b@c.com", CreatedAt := tSample }).2.2 "other"
     (by decide)⟩

/-- C7: the logging wrappers never alter the outcome of the wrapped call:
the gRPC interceptor returns exactly the handler response-and-status pair,
the HTTP middleware forwards to the underlying writer exactly the status
and body writes the handler makes on the restored request body, and a
failed serialization-for-logging only yields the placeholder marker in the
log entry. -/
theorem c7_logging_transparent {Req Resp : Type} (handler : Req → Resp × Option GrpcCode)
    (mreq : Req → Option (Option String)) (mresp : Resp → Option (Option String))
    (method : String) (req : Req)
    (next : String → List WEvent) (cmpReq cmpResp : String → Option String) (b : String) :
    (GRPCLogging handler mreq mresp method req).1 = handler req ∧
    (Logging next cmpReq cmpResp b).1 = next b ∧
    marshalProto (some none) = "<unmarshalable>" :=
  ⟨rfl, by simp [Logging, recRun_underlying], rfl⟩

/-- C8: running any sequence of operations containing no create between
two list calls leaves the store state, hence the multiset of listed
records, unchanged. -/
theorem c8_idempotent_list (s : Store) (ops : List Op)
    (hno : ops.all (fun o => !o.isCreate) = true) :
    Multiset.ofList (listedAccounts (applyOps s ops)) = Multiset.ofList (listedAccounts s) := by
  rw [applyOps_no_writes ops hno s]

/-- Witness for C8 on a concrete store with an intervening get and list. -/
theorem c8_idempotent_list_witness :
    (([Op.get "x", Op.list] : List Op).all (fun o => !o.isCreate) = true) ∧
    Multiset.ofList (listedAccounts (applyOps storeSample [Op.get "x", Op.list])) =
      Multiset.ofList (listedAccounts storeSample) :=
  ⟨by decide, c8_idempotent_list storeSample [Op.get "x", Op.list] (by decide)⟩

/-- C9: every store state reachable from the empty store satisfies the
invariant that each entry is keyed by the ID of the account it holds, and
therefore a successful get only ever returns an account whose ID equals
the requested id. -/
theorem c9_reachable_keyed (ops : List Op) (id : String) (acc : Account)
    (h : AccountStore.GetByID (applyOps [] ops) id = Except.ok acc) :
    storeWFb (applyOps [] ops) = true ∧ acc.ID = id := by
  have hwf : storeWFb (applyOps [] ops) = true := storeWFb_applyOps ops [] (by decide)
  refine ⟨hwf, ?_⟩
  have hl : alLookup (applyOps [] ops) id = some acc := by
    unfold AccountStore.GetByID at h
    cases hcase : alLookup (applyOps [] ops) id with
    | none => rw [hcase] at h; simp at h
    | some a => rw [hcase] at h; simpa using h
  exact alLookup_keyed _ _ _ ((storeWFb_iff _).mp hwf) hl

/-- Witness for C9 on the store reached by one concrete create. -/
theorem c9_reachable_keyed_witness :
    (AccountStore.GetByID (applyOps [] [Op.create accSample]) "id1" = Except.ok accSample) ∧
    (storeWFb (applyOps [] [Op.create accSample]) = true ∧ accSample.ID = "id1") :=
  ⟨rfl, c9_reachable_keyed [Op.create accSample] "id1" accSample rfl⟩

/-- C10: a well-formed JSON object body lacking the name or email key
decodes (it is not a malformed body, which yields a different message),
the absent fields read as empty strings, and the handler answers 400 with
the required-fields message leaving the store unchanged. -/
theorem c10_missing_fields (s : Store) (uuid : String) (now : GoTime) :
    ReqBody.decode (ReqBody.object none none) = some { Name := "", Email := "" } ∧
    createAccount s (ReqBody.object none none) uuid now =
      (httpError "name and email are required" 400, s) ∧
    createAccount s ReqBody.malformed uuid now = (httpError "invalid request body" 400, s) :=
  ⟨rfl, rfl, rfl⟩
